import Mathlib

/-!
Verification development for the media-downloader bot repository.

Shallow embedding of the quota ledger (src/database/model.py), the result
cache (src/database/cache.py), the cache fingerprint and download hooks
(src/engine/base.py), the yt-dlp candidate-format loop (src/engine/generic.py),
the direct-HTTP streaming download (src/engine/direct.py) and the strategy
registry (src/engine/__init__.py).

Database rows are modelled as explicit values threaded through the functions;
a `session.query(User).first()` lookup becomes an `Option UserQ` argument.
Configuration constants that live in the repository's config package
(ENABLE_VIP, OWNER, FREE_BANDWIDTH, MAX_DOWNLOAD_SIZE, TG_NORMAL_MAX_SIZE)
are passed as parameters.
-/

namespace MediaBot

/-- A row of the `users` table (src/database/model.py, class User): the quota
ledger fields used by check_quota / use_quota / add_bandwidth_used.
`is_blocked` is an Integer used as a boolean in the source, modelled as Bool. -/
structure UserQ where
  free : Int
  paid : Int
  bandwidthUsed : Int
  totalBandwidth : Int
  isBlocked : Bool
deriving DecidableEq, Repr

/-- Error message raised by check_quota for a blocked user (model.py line 205). -/
def blocked_msg : String := "המשתמש שלך נחסם. פנה למנהל."

/-- Error message raised by check_quota when free + paid <= 0 (model.py line 208). -/
def file_limit_msg : String := "הגעת למגבלת 5 קבצים ליום. אנא /buy או המתן עד מחר"

/-- Error message raised by check_quota when the daily bandwidth cap is reached
(model.py line 211). -/
def bandwidth_limit_msg : String := "הגעת למגבלת 2GB ליום. אנא המתן עד מחר"

/-- Error message raised by use_quota when both counters are exhausted
(model.py line 227). -/
def quota_exhausted_msg : String := "המכסה נגמרה. אנא /buy או המתן עד לאיפוס המכסה החינמית"

/-- check_quota (src/database/model.py lines 192-211).
Parameters: `enableVip` = ENABLE_VIP, `owner` = OWNER, `freeBandwidth` =
FREE_BANDWIDTH, `uid` = the telegram id, `user` = the queried row (none when
no row exists).  The function only reads; we return the (unchanged) row on
the ok path so that non-mutation is part of the embedded behaviour. -/
def check_quota (enableVip : Bool) (owner : List Int) (freeBandwidth : Int)
    (uid : Int) (user : Option UserQ) : Except String (Option UserQ) :=
  if !enableVip then .ok user
  else if uid ∈ owner then .ok user
  else
    match user with
    | none => .ok none
    | some data =>
      if data.isBlocked then .error blocked_msg
      else if data.free + data.paid ≤ 0 then .error file_limit_msg
      else if data.bandwidthUsed ≥ freeBandwidth then .error bandwidth_limit_msg
      else .ok (some data)

/-- use_quota (src/database/model.py lines 214-227): use free first, then paid;
raise when both are exhausted; no-op when ENABLE_VIP is off or the row is
missing. -/
def use_quota (enableVip : Bool) (user : Option UserQ) : Except String (Option UserQ) :=
  if !enableVip then .ok user
  else
    match user with
    | none => .ok none
    | some u =>
      if u.free > 0 then .ok (some { u with free := u.free - 1 })
      else if u.paid > 0 then .ok (some { u with paid := u.paid - 1 })
      else .error quota_exhausted_msg

/-- add_bandwidth_used (src/database/model.py lines 252-263): adds `size` to the
daily and all-time bandwidth counters; no-op when ENABLE_VIP is off or the
row is missing.  The source's `(user.total_bandwidth or 0)` null-guard is the
identity here because the field is a total Int. -/
def add_bandwidth_used (enableVip : Bool) (size : Int) (user : Option UserQ) :
    Option UserQ :=
  if !enableVip then user
  else
    match user with
    | none => none
    | some u =>
      some { u with bandwidthUsed := u.bandwidthUsed + size,
                    totalBandwidth := u.totalBandwidth + size }

/-- A row of the `video_cache` table (src/database/cache.py, class VideoCache):
cache_key has a unique constraint; file_id and meta are JSON strings. -/
structure CacheRow where
  key : String
  fileId : String
  meta : String
deriving DecidableEq, Repr

/-- The mapping dict passed to add_cache: `mapping.get("file_id", "[]")` and
`mapping.get("meta", "{}")` read optional keys with defaults, so both fields
are modelled as optional. -/
structure CacheMapping where
  fileId : Option String
  meta : Option String
deriving DecidableEq, Repr

/-- Redis.add_cache (src/database/cache.py lines 51-73): update the first row
matching the key in place, otherwise append a new row at the end of the table. -/
def add_cache : List CacheRow → String → CacheMapping → List CacheRow
  | [], key, m => [⟨key, m.fileId.getD "[]", m.meta.getD "{}"⟩]
  | r :: rs, key, m =>
    if r.key = key then ⟨key, m.fileId.getD "[]", m.meta.getD "{}"⟩ :: rs
    else r :: add_cache rs key m

/-- Redis.get_cache (src/database/cache.py lines 75-91): return the first row
matching the key as a (file_id, meta) pair; the source's empty-dict miss value
is modelled as none. -/
def get_cache : List CacheRow → String → Option (String × String)
  | [], _ => none
  | r :: rs, key => if r.key = key then some (r.fileId, r.meta) else get_cache rs key

/-- Redis.delete_cache (src/database/cache.py lines 93-107): delete every row
matching the key and report whether at least one row was deleted. -/
def delete_cache (table : List CacheRow) (key : String) : List CacheRow × Bool :=
  (table.filter (fun r => !(r.key == key)),
   table.countP (fun r => r.key == key) != 0)

/-- UTF-8 encoding of one code point as a list of byte values (the source's
`str.encode()`). -/
def utf8EncodeChar (c : Nat) : List Nat :=
  if c < 128 then [c]
  else if c < 2048 then [192 + c / 64, 128 + c % 64]
  else if c < 65536 then [224 + c / 4096, 128 + (c / 64) % 64, 128 + c % 64]
  else [240 + c / 262144, 128 + (c / 4096) % 64, 128 + (c / 64) % 64, 128 + c % 64]

/-- UTF-8 bytes of a string. -/
def strBytes (s : String) : List Nat :=
  (s.data.map (fun ch => utf8EncodeChar ch.toNat)).flatten

/-- MD5 round constants (floor(2^32 * abs(sin(i+1)))). -/
def md5K : List Nat := [
  0xd76aa478, 0xe8c7b756, 0x242070db, 0xc1bdceee,
  0xf57c0faf, 0x4787c62a, 0xa8304613, 0xfd469501,
  0x698098d8, 0x8b44f7af, 0xffff5bb1, 0x895cd7be,
  0x6b901122, 0xfd987193, 0xa679438e, 0x49b40821,
  0xf61e2562, 0xc040b340, 0x265e5a51, 0xe9b6c7aa,
  0xd62f105d, 0x02441453, 0xd8a1e681, 0xe7d3fbc8,
  0x21e1cde6, 0xc33707d6, 0xf4d50d87, 0x455a14ed,
  0xa9e3e905, 0xfcefa3f8, 0x676f02d9, 0x8d2a4c8a,
  0xfffa3942, 0x8771f681, 0x6d9d6122, 0xfde5380c,
  0xa4beea44, 0x4bdecfa9, 0xf6bb4b60, 0xbebfbc70,
  0x289b7ec6, 0xeaa127fa, 0xd4ef3085, 0x04881d05,
  0xd9d4d039, 0xe6db99e5, 0x1fa27cf8, 0xc4ac5665,
  0xf4292244, 0x432aff97, 0xab9423a7, 0xfc93a039,
  0x655b59c3, 0x8f0ccc92, 0xffeff47d, 0x85845dd1,
  0x6fa87e4f, 0xfe2ce6e0, 0xa3014314, 0x4e0811a1,
  0xf7537e82, 0xbd3af235, 0x2ad7d2bb, 0xeb86d391]

/-- MD5 per-round left-rotation amounts. -/
def md5S : List Nat := [
  7, 12, 17, 22, 7, 12, 17, 22, 7, 12, 17, 22, 7, 12, 17, 22,
  5, 9, 14, 20, 5, 9, 14, 20, 5, 9, 14, 20, 5, 9, 14, 20,
  4, 11, 16, 23, 4, 11, 16, 23, 4, 11, 16, 23, 4, 11, 16, 23,
  6, 10, 15, 21, 6, 10, 15, 21, 6, 10, 15, 21, 6, 10, 15, 21]

/-- 32-bit modular addition. -/
def add32 (a b : Nat) : Nat := (a + b) % 4294967296

/-- 32-bit bitwise complement (inputs stay below 2^32). -/
def not32 (x : Nat) : Nat := 4294967295 - x

/-- 32-bit left rotation by c bits. -/
def rotl32 (x c : Nat) : Nat := (x % 2 ^ (32 - c)) * 2 ^ c + x / 2 ^ (32 - c)

/-- The MD5 nonlinear function for round i. -/
def md5F (i b c d : Nat) : Nat :=
  if i < 16 then (b &&& c) ||| (not32 b &&& d)
  else if i < 32 then (d &&& b) ||| (not32 d &&& c)
  else if i < 48 then b ^^^ c ^^^ d
  else c ^^^ (b ||| not32 d)

/-- The MD5 message-word index for round i. -/
def md5G (i : Nat) : Nat :=
  if i < 16 then i
  else if i < 32 then (5 * i + 1) % 16
  else if i < 48 then (3 * i + 5) % 16
  else (7 * i) % 16

/-- MD5 padding: one 0x80 byte, zeros to 56 mod 64, then the 64-bit
little-endian bit length. -/
def md5Pad (msg : List Nat) : List Nat :=
  let len := msg.length
  let padLen := (56 - (len + 1) % 64 + 64) % 64
  let bitLen := (len * 8) % 2 ^ 64
  msg ++ [128] ++ List.replicate padLen 0 ++
    (List.range 8).map (fun i => bitLen / 2 ^ (8 * i) % 256)

/-- Little-endian 32-bit word j of a 64-byte chunk. -/
def chunkWord (chunk : List Nat) (j : Nat) : Nat :=
  chunk.getD (4 * j) 0 + chunk.getD (4 * j + 1) 0 * 256 +
    chunk.getD (4 * j + 2) 0 * 65536 + chunk.getD (4 * j + 3) 0 * 16777216

/-- One MD5 round applied to the running (a, b, c, d) state. -/
def md5Round (chunk : List Nat) (st : Nat × Nat × Nat × Nat) (i : Nat) :
    Nat × Nat × Nat × Nat :=
  let (a, b, c, d) := st
  let f := md5F i b c d
  let tmp := add32 (add32 (add32 a f) (md5K.getD i 0)) (chunkWord chunk (md5G i))
  (d, add32 b (rotl32 tmp (md5S.getD i 0)), b, c)

/-- Process one 64-byte chunk: 64 rounds, then add into the state. -/
def md5Chunk (st : Nat × Nat × Nat × Nat) (chunk : List Nat) :
    Nat × Nat × Nat × Nat :=
  let r := (List.range 64).foldl (md5Round chunk) st
  (add32 st.1 r.1, add32 st.2.1 r.2.1, add32 st.2.2.1 r.2.2.1,
   add32 st.2.2.2 r.2.2.2)

/-- Split a byte list into 64-byte chunks. -/
def chunks64 (l : List Nat) : List (List Nat) :=
  if h : l = [] then [] else l.take 64 :: chunks64 (l.drop 64)
termination_by l.length
decreasing_by
  simp only [List.length_drop]
  have hpos : 0 < l.length := List.length_pos.mpr h
  omega

/-- Lower-case hexadecimal digit. -/
def hexDigit (n : Nat) : Char :=
  if n < 10 then Char.ofNat (48 + n) else Char.ofNat (87 + n)

/-- Two hex characters of one byte. -/
def byteHex (b : Nat) : List Char := [hexDigit (b / 16), hexDigit (b % 16)]

/-- hashlib.md5(...).hexdigest(): the MD5 digest of a byte sequence as a
lower-case hex string (validated against standard MD5 test vectors). -/
def md5_hex (msg : List Nat) : String :=
  let st := (chunks64 (md5Pad msg)).foldl md5Chunk
    (0x67452301, 0xefcdab89, 0x98badcfe, 0x10325476)
  let bytes := ([st.1, st.2.1, st.2.2.1, st.2.2.2].map
    (fun w => (List.range 4).map (fun i => w / 2 ^ (8 * i) % 256))).flatten
  String.mk (bytes.map byteHex).flatten

/-- The string hashed by BaseDownloader._calc_video_key (src/engine/base.py
line 711): the plain concatenation url + quality + format. -/
def video_key_input (url quality fmt : String) : String := url ++ quality ++ fmt

/-- BaseDownloader._calc_video_key (src/engine/base.py lines 709-713): the MD5
hex digest of the concatenation of url, quality and format. -/
def calc_video_key (url quality fmt : String) : String :=
  md5_hex (strBytes (video_key_input url quality fmt))

/-- Contiguous-subsequence test on character lists. -/
def chars_contain : List Char → List Char → Bool
  | [], pat => pat.isEmpty
  | c :: rest, pat => pat.isPrefixOf (c :: rest) || chars_contain rest pat

/-- Substring test (Python's `pat in s`), on the underlying character lists. -/
def str_contains (s pat : String) : Bool := chars_contain s.data pat.data

/-- The substrings recognised by is_extraction_error
(src/engine/generic.py lines 201-211). -/
def extraction_error_substrings : List String :=
  ["Unable to extract", "unable to extract", "Unsupported URL",
   "This video is not available", "Video unavailable", "ExtractorError"]

/-- is_extraction_error (src/engine/generic.py lines 201-211). -/
def is_extraction_error (msg : String) : Bool :=
  extraction_error_substrings.any (fun e => str_contains msg e)

/-- Message of the NotImplementedError raised by match_filter for live-stream
content (src/engine/generic.py line 216). -/
def live_stream_msg : String := "לא ניתן להוריד שידור חי"

/-- match_filter (src/engine/generic.py lines 214-217): raise for live
content, otherwise allow the download. -/
def match_filter (isLive : Bool) : Except String Unit :=
  if isLive then .error live_stream_msg else .ok ()

/-- Observable outcome of one candidate-format attempt inside
YoutubeDownload._download: either `ydl.download` raised an exception with the
given message, or it returned and the glob of the working directory produced
the given file list. -/
inductive Outcome where
  | err (msg : String)
  | ok (files : List String)
deriving DecidableEq, Repr

/-- An attempt that the loop does not accept: it raised, or it completed with
an empty directory listing. -/
def attempt_failed (o : Outcome) : Bool :=
  match o with
  | .err _ => true
  | .ok files => files.isEmpty

/-- State of the candidate loop of YoutubeDownload._download (generic.py lines
404-423): the `files` variable (None before any attempt completes), the
`extraction_error_encountered` flag, and the indices attempted so far (in
order). -/
structure DLLoopState where
  files : Option (List String)
  extractionError : Bool
  attempted : List Nat
deriving DecidableEq, Repr

/-- The `for f in formats` loop of YoutubeDownload._download (generic.py lines
408-423): each candidate is attempted in order; an exception records the
extraction flag and continues; a completed attempt stores the directory
listing and breaks only when it is non-empty.  `attempt i` is the outcome of
the attempt at index i; format specifiers are Option String because the
candidate lists contain Python None entries. -/
def dlLoop (attempt : Nat → Outcome) :
    List (Option String) → Nat → DLLoopState → DLLoopState
  | [], _, st => st
  | _f :: rest, i, st =>
    match attempt i with
    | .err msg =>
      dlLoop attempt rest (i + 1)
        ⟨st.files, st.extractionError || is_extraction_error msg,
         st.attempted ++ [i]⟩
    | .ok files =>
      if files.isEmpty then
        dlLoop attempt rest (i + 1)
          ⟨some files, st.extractionError, st.attempted ++ [i]⟩
      else ⟨some files, st.extractionError, st.attempted ++ [i]⟩

/-- Python truthiness of the `files` variable (`if not files`). -/
def files_falsy : Option (List String) → Bool
  | none => true
  | some [] => true
  | some (_ :: _) => false

/-- Result of one call of YoutubeDownload._download: the returned files, every
candidate index attempted (both rounds when the auto-update retry ran), and
whether the retry round ran. -/
structure DownloadRun where
  files : Option (List String)
  attempted : List Nat
  retriedAfterUpdate : Bool
deriving DecidableEq, Repr

/-- YoutubeDownload._download (generic.py lines 404-434): run the candidate
loop; if no files were produced, an extraction error was seen, this is not
already the post-update retry, and try_update_ytdlp reports an installed
update (`updateInstalled`), rerun the whole chain once with the post-update
attempt outcomes. -/
def yt_download (attempt attemptAfterUpdate : Nat → Outcome)
    (updateInstalled : Bool) (formats : List (Option String))
    (retryAfterUpdate : Bool) : DownloadRun :=
  let st := dlLoop attempt formats 0 ⟨none, false, []⟩
  if files_falsy st.files && st.extractionError && !retryAfterUpdate
      && updateInstalled then
    let st2 := dlLoop attemptAfterUpdate formats 0 ⟨none, false, []⟩
    ⟨st2.files, st.attempted ++ st2.attempted, true⟩
  else ⟨st.files, st.attempted, false⟩

/-- Message of the ValueError raised by check_for_cancel
(src/engine/base.py line 174). -/
def cancel_msg : String := "ההורדה בוטלה על ידי המשתמש 🛑"

/-- Message of the Exception raised by download_hook for an oversized total
(src/engine/base.py line 156); the human-readable sizeof_fmt rendering is
abstracted to the raw byte count. -/
def size_limit_msg (total : Nat) : String :=
  "גודל הקובץ " ++ toString total ++ " גדול מדי (מקסימום 4GB)"

/-- A raised Python exception, keeping the class distinction the source
branches on: check_for_cancel raises ValueError, download_hook raises a plain
Exception, and DirectDownload._start catches only ValueError. -/
inductive PyErr where
  | valueError (msg : String)
  | exn (msg : String)
deriving DecidableEq, Repr

/-- BaseDownloader.check_for_cancel (src/engine/base.py lines 170-174): when
the transfer's key is in the cancellation set, discard it and raise; the
updated set is returned alongside the raised error. -/
def check_for_cancel (events : Finset String) (key : String) :
    Finset String × Option PyErr :=
  if key ∈ events then (events.erase key, some (.valueError cancel_msg))
  else (events, none)

/-- The progress dict passed to BaseDownloader.download_hook: status,
downloaded_bytes, and the optional total_bytes / total_bytes_estimate keys. -/
structure HookData where
  status : String
  downloadedBytes : Nat
  totalBytes : Option Nat
  totalBytesEstimate : Option Nat
deriving DecidableEq, Repr

/-- The source's `d.get("total_bytes") or d.get("total_bytes_estimate", 0)`
(base.py line 152): Python `or` falls through on None and on 0. -/
def hook_total (d : HookData) : Nat :=
  let t := d.totalBytes.getD 0
  if t = 0 then d.totalBytesEstimate.getD 0 else t

/-- BaseDownloader.download_hook (src/engine/base.py lines 148-163): poll the
cancellation set first; on a downloading event whose advertised total exceeds
MAX_DOWNLOAD_SIZE (`maxSize`), raise; otherwise just report progress. -/
def download_hook (maxSize : Nat) (key : String) (events : Finset String)
    (d : HookData) : Finset String × Option PyErr :=
  match check_for_cancel events key with
  | (ev, some e) => (ev, some e)
  | (ev, none) =>
    if d.status = "downloading" then
      if hook_total d > maxSize then
        (ev, some (.exn (size_limit_msg (hook_total d))))
      else (ev, none)
    else (ev, none)

/-- State of one streaming download: the shared cancellation set and the bytes
written to the partial file so far. -/
structure DirectState where
  events : Finset String
  written : Nat
deriving DecidableEq

/-- The chunk loop of DirectDownload._requests_download (src/engine/direct.py
lines 77-104): each element of `chunks` is the byte size of one chunk from
`iter_content`; an empty chunk is skipped (`if chunk:`); otherwise the chunk
is written, the cancellation set is polled, and when a content-length was
advertised (`totalSize > 0`) download_hook runs with the advertised total. -/
def requests_stream (maxSize : Nat) (key : String) (totalSize : Nat) :
    List Nat → DirectState → DirectState × Option PyErr
  | [], st => (st, none)
  | c :: cs, st =>
    if c = 0 then requests_stream maxSize key totalSize cs st
    else
      match check_for_cancel st.events key with
      | (ev, some e) => (⟨ev, st.written + c⟩, some e)
      | (ev, none) =>
        if totalSize > 0 then
          match download_hook maxSize key ev
              ⟨"downloading", st.written + c, some totalSize, none⟩ with
          | (ev2, some e) => (⟨ev2, st.written + c⟩, some e)
          | (ev2, none) =>
            requests_stream maxSize key totalSize cs ⟨ev2, st.written + c⟩
        else requests_stream maxSize key totalSize cs ⟨ev, st.written + c⟩

/-- DirectDownload._start's cancellation test (src/engine/direct.py line 303):
the Python `"בוטלה" in str(e)`. -/
def contains_cancel_word (msg : String) : Bool := str_contains msg "בוטלה"

/-- Shared state seen by one direct-download request: the cancellation set and
the video-cache table. -/
structure DirectPipeState where
  events : Finset String
  cache : List CacheRow
deriving DecidableEq

/-- How DirectDownload._start ends: upload completed (cache written),
cancellation caught and handled, or an exception propagated. -/
inductive StartOutcome where
  | completed
  | cancelledHandled
  | raised (e : PyErr)
deriving DecidableEq, Repr

/-- DirectDownload._start (src/engine/direct.py lines 297-310) composed with
the cache write of BaseDownloader._upload (base.py line 632): a download that
returns leads to the upload path, which ends by writing the cache entry for
the request's video key; a ValueError containing the cancellation word is
handled in place; any other error propagates.  In every non-completed path no
cache write happens. -/
def direct_start (maxSize : Nat) (key videoKey : String) (totalSize : Nat)
    (chunks : List Nat) (mapping : CacheMapping) (st : DirectPipeState) :
    DirectPipeState × StartOutcome :=
  match requests_stream maxSize key totalSize chunks ⟨st.events, 0⟩ with
  | (dst, none) =>
    (⟨dst.events, add_cache st.cache videoKey mapping⟩, .completed)
  | (dst, some (.valueError m)) =>
    if contains_cancel_word m then (⟨dst.events, st.cache⟩, .cancelledHandled)
    else (⟨dst.events, st.cache⟩, .raised (.valueError m))
  | (dst, some (.exn m)) => (⟨dst.events, st.cache⟩, .raised (.exn m))

/-- Number of parts computed by BaseDownloader._split_video_if_needed
(src/engine/base.py lines 384-386): math.ceil(file_size / (1.9 * 1024 ** 3)),
in exact rational arithmetic (the source computes it in binary floating point,
which can differ by one part for sizes within a rounding error of a part
boundary). -/
def num_parts (fileSize : Nat) : Nat :=
  (10 * fileSize + (19 * 1024 ^ 3) - 1) / (19 * 1024 ^ 3)

/-- One planned ffmpeg cut of _split_video_if_needed: part index, the `ss`
start offset and the `t` cut length in seconds. -/
structure VideoPart where
  index : Nat
  startTime : ℚ
  partDuration : ℚ
deriving DecidableEq

/-- Result of _split_video_if_needed: the original single file, or the list of
planned parts. -/
inductive SplitResult where
  | original
  | parts (ps : List VideoPart)
deriving DecidableEq

/-- BaseDownloader._split_video_if_needed (src/engine/base.py lines 361-425):
a file at or below TG_NORMAL_MAX_SIZE (`tgMax`) is returned as-is; a larger
file is cut into num_parts duration-equal parts, part i starting at
i * duration / num_parts.  The byte size of each produced part is determined
by ffmpeg's container-level cut and is not modelled. -/
def split_video_if_needed (tgMax fileSize : Nat) (duration : ℚ) : SplitResult :=
  if fileSize ≤ tgMax then .original
  else
    .parts ((List.range (num_parts fileSize)).map (fun i =>
      ⟨i, (i : ℚ) * (duration / (num_parts fileSize : ℚ)),
       duration / (num_parts fileSize : ℚ)⟩))

/-- Python str.endswith, on the underlying character lists. -/
def str_ends_with (s sfx : String) : Bool :=
  sfx.data.reverse.isPrefixOf s.data.reverse

/-- ASCII lower-casing of one character. -/
def char_lower (c : Char) : Char :=
  if 65 ≤ c.toNat ∧ c.toNat ≤ 90 then Char.ofNat (c.toNat + 32) else c

/-- Python str.lower (the URLs involved are ASCII). -/
def str_lower (s : String) : String := String.mk (s.data.map char_lower)

/-- The downloader strategies registered in DOWNLOADER_MAP
(src/engine/__init__.py lines 67-75). -/
inductive Strategy where
  | pixeldrain
  | krakenfiles
  | instagram
  | reddit
  | tiktok
deriving DecidableEq, Repr

/-- DOWNLOADER_MAP (src/engine/__init__.py lines 67-75), in dict insertion
order (the iteration order of the source's matching loop). -/
def DOWNLOADER_MAP : List (String × Strategy) := [
  ("pixeldrain.com", .pixeldrain),
  ("krakenfiles.com", .krakenfiles),
  ("instagram.com", .instagram),
  ("reddit.com", .reddit),
  ("redd.it", .reddit),
  ("tiktok.com", .tiktok),
  ("vt.tiktok.com", .tiktok)]

/-- MEDIA_EXTENSIONS (src/engine/__init__.py lines 78-82). -/
def MEDIA_EXTENSIONS : List String := [
  ".mp4", ".mkv", ".avi", ".mov", ".webm", ".flv", ".wmv", ".m4v",
  ".mp3", ".m4a", ".flac", ".wav", ".aac", ".ogg", ".wma",
  ".zip", ".rar", ".7z", ".tar", ".gz"]

/-- is_direct_download_url (src/engine/__init__.py lines 85-88): true when any
media extension occurs as a substring anywhere in the lower-cased URL. -/
def is_direct_download_url (url : String) : Bool :=
  MEDIA_EXTENSIONS.any (fun ext => str_contains (str_lower url) ext)

/-- The claim's reading of direct-link detection, following the spec's words:
the URL's path suggests a direct media file by its extension.  Defined only to
be compared with is_direct_download_url, which the source actually uses. -/
def spec_direct_by_path_extension (path : String) : Bool :=
  MEDIA_EXTENSIONS.any (fun ext => str_ends_with path ext)

/-- Result of special_download_entrance (src/engine/__init__.py lines
91-112). -/
inductive Resolution where
  | invalidUrl
  | youtubeGuidance
  | handler (s : Strategy)
  | direct
  | noStrategy
deriving DecidableEq, Repr

/-- special_download_entrance (src/engine/__init__.py lines 91-112): reject a
missing hostname; reject YouTube hostnames with the guidance error; otherwise
the first DOWNLOADER_MAP entry whose domain is a suffix of the hostname wins;
otherwise the generic direct-HTTP path is taken exactly when
is_direct_download_url accepts the URL; otherwise no downloader matches.
The hostname is the value produced by Python's urlparse, passed in directly. -/
def special_download_entrance (hostname : Option String) (url : String) :
    Resolution :=
  match hostname with
  | none => .invalidUrl
  | some h =>
    if str_ends_with h "youtube.com" || h == "youtu.be" then .youtubeGuidance
    else
      match DOWNLOADER_MAP.find? (fun p => str_ends_with h p.1) with
      | some p => .handler p.2
      | none =>
        if is_direct_download_url url then .direct else .noStrategy

/-- C1: use_quota consumes one unit from the free allowance first and only then
from the paid balance, never drives either counter below zero, and fails with
the quota-exhausted error when both counters are already zero (stated for an
existing user record with the VIP feature enabled; with it disabled the
operation is a no-op, see the VIP no-op theorem). -/
theorem use_quota_free_first_never_negative (u : UserQ) :
    (0 < u.free →
      use_quota true (some u) = .ok (some { u with free := u.free - 1 })) ∧
    (u.free ≤ 0 → 0 < u.paid →
      use_quota true (some u) = .ok (some { u with paid := u.paid - 1 })) ∧
    (0 ≤ u.free → 0 ≤ u.paid → ∀ v, use_quota true (some u) = .ok (some v) →
      0 ≤ v.free ∧ 0 ≤ v.paid) ∧
    (u.free = 0 → u.paid = 0 →
      use_quota true (some u) = .error quota_exhausted_msg) := by
  refine ⟨?_, ?_, ?_, ?_⟩
  · intro h
    simp [use_quota, h]
  · intro hf hp
    have h1 : ¬ u.free > 0 := by omega
    simp [use_quota, h1, hp]
  · intro hf hp v hv
    by_cases h1 : u.free > 0
    · simp [use_quota, h1] at hv
      cases hv
      refine ⟨?_, ?_⟩
      · show 0 ≤ u.free - 1
        omega
      · exact hp
    · by_cases h2 : u.paid > 0
      · simp [use_quota, h1, h2] at hv
        cases hv
        refine ⟨?_, ?_⟩
        · exact hf
        · show 0 ≤ u.paid - 1
          omega
      · simp [use_quota, h1, h2] at hv
  · intro h1 h2
    simp [use_quota, h1, h2]

/-- Witness for the use_quota theorem: a user with both counters at zero is
rejected with the quota-exhausted error. -/
theorem use_quota_free_first_never_negative_witness :
    use_quota true (some ⟨0, 0, 0, 0, false⟩) = .error quota_exhausted_msg :=
  (use_quota_free_first_never_negative ⟨0, 0, 0, 0, false⟩).2.2.2 rfl rfl

/-- C2 counterexample: the claim states check_quota fails if and only if the
user is blocked, or free+paid <= 0, or the daily bandwidth cap is exceeded.
The source exempts owners first (model.py lines 196-198): a blocked user whose
id is in OWNER passes the check, so the left-to-right direction of the claimed
equivalence fails at this concrete input. -/
theorem check_quota_claim_counterexample :
    check_quota true [7] 100 7 (some ⟨5, 5, 0, 0, true⟩) =
      .ok (some ⟨5, 5, 0, 0, true⟩) ∧
    (⟨5, 5, 0, 0, true⟩ : UserQ).isBlocked = true := by
  constructor
  · rfl
  · rfl

/-- C2 amended: with the VIP feature enabled, check_quota passes unconditionally
for owners; for a non-owner with an existing record it fails if and only if the
user is blocked, or free+paid <= 0, or the daily bandwidth used has reached
(greater than or equal to) the configured cap; and any successful check returns
the record unchanged. -/
theorem check_quota_denial_characterization (owner : List Int) (cap uid : Int)
    (u : UserQ) :
    (uid ∈ owner → check_quota true owner cap uid (some u) = .ok (some u)) ∧
    (uid ∉ owner →
      ((∃ msg, check_quota true owner cap uid (some u) = .error msg) ↔
        (u.isBlocked = true ∨ u.free + u.paid ≤ 0 ∨ cap ≤ u.bandwidthUsed))) ∧
    (∀ v, check_quota true owner cap uid (some u) = .ok v → v = some u) := by
  refine ⟨?_, ?_, ?_⟩
  · intro h
    simp [check_quota, h]
  · intro h
    by_cases hb : u.isBlocked = true
    · simp [check_quota, h, hb]
    · by_cases hfp : u.free + u.paid ≤ 0
      · simp [check_quota, h, hb, hfp]
      · by_cases hbw : u.bandwidthUsed ≥ cap
        · simp [check_quota, h, hb, hfp, hbw]
        · simp [check_quota, h, hb, hfp, hbw]
  · intro v hv
    simp only [check_quota, Bool.not_true] at hv
    split_ifs at hv <;> simp_all

/-- Witness for the amended check_quota theorem: a non-owner user exactly at the
bandwidth cap is denied. -/
theorem check_quota_denial_characterization_witness :
    ∃ msg, check_quota true [] 100 5 (some ⟨1, 0, 100, 0, false⟩) = .error msg :=
  ((check_quota_denial_characterization [] 100 5 ⟨1, 0, 100, 0, false⟩).2.1
    (by decide)).mpr (Or.inr (Or.inr (by decide)))

/-- C10: with the VIP feature flag disabled, the quota layer is a no-op:
check_quota succeeds for every user (blocked and zero-balance users included),
and use_quota and add_bandwidth_used leave every record unchanged for every
input size. -/
theorem vip_disabled_quota_noop (owner : List Int) (cap uid size : Int)
    (user : Option UserQ) :
    check_quota false owner cap uid user = .ok user ∧
    use_quota false user = .ok user ∧
    add_bandwidth_used false size user = user :=
  ⟨rfl, rfl, rfl⟩

lemma get_cache_eq_none_of_no_key (k : String) :
    ∀ t : List CacheRow, (∀ r ∈ t, r.key ≠ k) → get_cache t k = none := by
  intro t
  induction t with
  | nil => intro _; rfl
  | cons r rs ih =>
    intro h
    have hr : r.key ≠ k := h r (by simp)
    simp only [get_cache, if_neg hr]
    exact ih (fun x hx => h x (by simp [hx]))

lemma get_add_cache (k : String) (m : CacheMapping) :
    ∀ t : List CacheRow,
      get_cache (add_cache t k m) k = some (m.fileId.getD "[]", m.meta.getD "{}") := by
  intro t
  induction t with
  | nil => simp [add_cache, get_cache]
  | cons r rs ih =>
    by_cases h : r.key = k
    · simp [add_cache, get_cache, h]
    · simp only [add_cache, if_neg h, get_cache, if_neg h]
      exact ih

lemma add_cache_key_not_mem (k : String) (m : CacheMapping) (x : String) :
    ∀ t : List CacheRow, x ∉ t.map CacheRow.key → x ≠ k →
      x ∉ (add_cache t k m).map CacheRow.key := by
  intro t
  induction t with
  | nil =>
    intro _ hxk
    simp [add_cache, hxk]
  | cons r rs ih =>
    intro hx hxk
    simp only [List.map_cons, List.mem_cons, not_or] at hx
    by_cases h : r.key = k
    · simp [add_cache, h, hxk, hx.2]
    · simp only [add_cache, if_neg h, List.map_cons, List.mem_cons, not_or]
      exact ⟨hx.1, ih hx.2 hxk⟩

lemma add_cache_nodup (k : String) (m : CacheMapping) :
    ∀ t : List CacheRow, (t.map CacheRow.key).Nodup →
      ((add_cache t k m).map CacheRow.key).Nodup := by
  intro t
  induction t with
  | nil => intro _; simp [add_cache]
  | cons r rs ih =>
    intro h
    simp only [List.map_cons, List.nodup_cons] at h
    by_cases hk : r.key = k
    · subst hk
      simpa [add_cache, List.nodup_cons] using h
    · simp only [add_cache, if_neg hk, List.map_cons, List.nodup_cons]
      exact ⟨add_cache_key_not_mem k m r.key rs h.1 hk, ih h.2⟩

lemma countP_key_eq_zero (k : String) :
    ∀ t : List CacheRow, k ∉ t.map CacheRow.key →
      t.countP (fun r => r.key == k) = 0 := by
  intro t
  induction t with
  | nil => intro _; rfl
  | cons r rs ih =>
    intro h
    simp only [List.map_cons, List.mem_cons, not_or] at h
    have hr : (r.key == k) = false := by
      simp [Ne.symm h.1]
    rw [List.countP_cons]
    simp [hr, ih h.2]

lemma add_cache_countP (k : String) (m : CacheMapping) :
    ∀ t : List CacheRow, (t.map CacheRow.key).Nodup →
      (add_cache t k m).countP (fun r => r.key == k) = 1 := by
  intro t
  induction t with
  | nil =>
    intro _
    simp [add_cache, List.countP_cons]
  | cons r rs ih =>
    intro h
    simp only [List.map_cons, List.nodup_cons] at h
    by_cases hk : r.key = k
    · subst hk
      have h0 := countP_key_eq_zero r.key rs h.1
      simp [add_cache, List.countP_cons, h0]
    · simp only [add_cache, if_neg hk]
      rw [List.countP_cons]
      have hr : (r.key == k) = false := by simp [hk]
      simp [hr, ih h.2]

/-- C8: a cache write followed by a read of the same key returns the written
entry; after the write the table holds exactly one row for that key (the write
replaced any prior row) and key-uniqueness is preserved; and a delete followed
by a read of the same key misses. -/
theorem cache_round_trip (table : List CacheRow) (k f mt : String)
    (hnd : (table.map CacheRow.key).Nodup) :
    get_cache (add_cache table k ⟨some f, some mt⟩) k = some (f, mt) ∧
    (add_cache table k ⟨some f, some mt⟩).countP (fun r => r.key == k) = 1 ∧
    ((add_cache table k ⟨some f, some mt⟩).map CacheRow.key).Nodup ∧
    get_cache (delete_cache table k).1 k = none := by
  refine ⟨get_add_cache k ⟨some f, some mt⟩ table,
          add_cache_countP k ⟨some f, some mt⟩ table hnd,
          add_cache_nodup k ⟨some f, some mt⟩ table hnd, ?_⟩
  apply get_cache_eq_none_of_no_key
  intro r hr
  simp only [delete_cache, List.mem_filter, Bool.not_eq_true'] at hr
  simpa using hr.2

/-- Witness for the cache round-trip theorem on a concrete table. -/
theorem cache_round_trip_witness :
    get_cache (add_cache [] "k1" ⟨some "fid", some "meta1"⟩) "k1" =
      some ("fid", "meta1") :=
  (cache_round_trip [] "k1" "fid" "meta1" (by simp)).1

/-- C3 counterexample: the claim states that distinct (url, quality, format)
triples never collide.  The key hashes the bare concatenation url + quality +
format (base.py line 711), so the distinct triples ("ab", "c", "d") and
("a", "bc", "d") produce the same concatenation "abcd" and hence the same
cache key. -/
theorem calc_video_key_collision_counterexample :
    calc_video_key "ab" "c" "d" = calc_video_key "a" "bc" "d" ∧
    ¬("ab" = "a" ∧ "c" = "bc") := by
  constructor
  · have h : video_key_input "ab" "c" "d" = video_key_input "a" "bc" "d" := by
      decide
    unfold calc_video_key
    rw [h]
  · decide

/-- C3 amended: the fingerprint is a deterministic pure function of the
concatenated string url + quality + format: any two triples with equal
concatenation (equal triples in particular) receive the same key, so distinct
triples whose concatenations coincide always collide. -/
theorem calc_video_key_determined_by_concatenation
    (u1 q1 f1 u2 q2 f2 : String)
    (h : video_key_input u1 q1 f1 = video_key_input u2 q2 f2) :
    calc_video_key u1 q1 f1 = calc_video_key u2 q2 f2 := by
  unfold calc_video_key
  rw [h]

/-- Witness for the amended fingerprint theorem at a concrete colliding pair. -/
theorem calc_video_key_determined_by_concatenation_witness :
    calc_video_key "x" "720" "video" = calc_video_key "x7" "20" "video" :=
  calc_video_key_determined_by_concatenation "x" "720" "video" "x7" "20" "video"
    (by decide)

lemma dlLoop_first_success (attempt : Nat → Outcome) (fs : List String) :
    ∀ (i : Nat) (fmts : List (Option String)) (k : Nat) (st : DLLoopState),
      i < fmts.length →
      attempt (k + i) = .ok fs → fs ≠ [] →
      (∀ j, j < i → attempt_failed (attempt (k + j)) = true) →
      ∃ b, dlLoop attempt fmts k st =
        ⟨some fs, b, st.attempted ++ List.range' k (i + 1)⟩ := by
  intro i
  induction i with
  | zero =>
    intro fmts k st hlen hok hne _
    match fmts, hlen with
    | f :: rest, _ =>
      refine ⟨st.extractionError, ?_⟩
      have hk : attempt k = .ok fs := by simpa using hok
      have hemp : fs.isEmpty = false := by
        cases fs with
        | nil => exact absurd rfl hne
        | cons a l => rfl
      simp [dlLoop, hk, hemp, List.range']
  | succ n ih =>
    intro fmts k st hlen hok hne hfail
    match fmts, hlen with
    | f :: rest, hlen2 =>
      have h0 : attempt_failed (attempt k) = true := by
        simpa using hfail 0 (Nat.succ_pos n)
      have hok' : attempt (k + 1 + n) = .ok fs := by
        rw [show k + 1 + n = k + (n + 1) by omega]
        exact hok
      have hfail' : ∀ j, j < n → attempt_failed (attempt (k + 1 + j)) = true := by
        intro j hj
        rw [show k + 1 + j = k + (j + 1) by omega]
        exact hfail (j + 1) (by omega)
      have hlen' : n < rest.length := by
        simp only [List.length_cons] at hlen2
        omega
      cases hatt : attempt k with
      | err msg =>
        obtain ⟨b, hb⟩ := ih rest (k + 1)
          ⟨st.files, st.extractionError || is_extraction_error msg,
           st.attempted ++ [k]⟩ hlen' hok' hne hfail'
        refine ⟨b, ?_⟩
        simp only [dlLoop, hatt, hb]
        simp [List.range', List.append_assoc]
      | ok files =>
        have hempty : files = [] := by
          have := h0
          rw [hatt] at this
          simpa [attempt_failed, List.isEmpty_iff] using this
        subst hempty
        obtain ⟨b, hb⟩ := ih rest (k + 1)
          ⟨some [], st.extractionError, st.attempted ++ [k]⟩ hlen' hok' hne hfail'
        refine ⟨b, ?_⟩
        simp only [dlLoop, hatt, List.isEmpty_nil, if_pos rfl, hb]
        simp [List.range', List.append_assoc]

lemma dlLoop_attempted_extends (attempt : Nat → Outcome) :
    ∀ (fmts : List (Option String)) (k : Nat) (st : DLLoopState),
      ∃ rest, (dlLoop attempt fmts k st).attempted = st.attempted ++ rest := by
  intro fmts
  induction fmts with
  | nil =>
    intro k st
    exact ⟨[], by simp [dlLoop]⟩
  | cons f rest ih =>
    intro k st
    cases hatt : attempt k with
    | err msg =>
      obtain ⟨r, hr⟩ := ih (k + 1)
        ⟨st.files, st.extractionError || is_extraction_error msg,
         st.attempted ++ [k]⟩
      refine ⟨[k] ++ r, ?_⟩
      simp only [dlLoop, hatt, hr]
      simp
    | ok files =>
      cases hfi : files.isEmpty with
      | true =>
        obtain ⟨r, hr⟩ := ih (k + 1)
          ⟨some files, st.extractionError, st.attempted ++ [k]⟩
        refine ⟨[k] ++ r, ?_⟩
        simp only [dlLoop, hatt, hfi]
        rw [if_pos trivial, hr]
        simp
      | false =>
        refine ⟨[k], ?_⟩
        simp [dlLoop, hatt, hfi]

lemma dlLoop_attempts_index (attempt : Nat → Outcome) :
    ∀ (i : Nat) (fmts : List (Option String)) (k : Nat) (st : DLLoopState),
      i < fmts.length →
      (∀ j, j < i → attempt_failed (attempt (k + j)) = true) →
      (k + i) ∈ (dlLoop attempt fmts k st).attempted := by
  intro i
  induction i with
  | zero =>
    intro fmts k st hlen _
    match fmts, hlen with
    | f :: rest, _ =>
      cases hatt : attempt k with
      | err msg =>
        obtain ⟨r, hr⟩ := dlLoop_attempted_extends attempt rest (k + 1)
          ⟨st.files, st.extractionError || is_extraction_error msg,
           st.attempted ++ [k]⟩
        simp only [dlLoop, hatt, hr]
        simp
      | ok files =>
        cases hfi : files.isEmpty with
        | true =>
          obtain ⟨r, hr⟩ := dlLoop_attempted_extends attempt rest (k + 1)
            ⟨some files, st.extractionError, st.attempted ++ [k]⟩
          simp only [dlLoop, hatt, hfi]
          rw [if_pos trivial, hr]
          simp
        | false =>
          simp [dlLoop, hatt, hfi]
  | succ n ih =>
    intro fmts k st hlen hfail
    match fmts, hlen with
    | f :: rest, hlen2 =>
      have hlen' : n < rest.length := by
        simp only [List.length_cons] at hlen2
        omega
      have h0 : attempt_failed (attempt k) = true := by
        simpa using hfail 0 (Nat.succ_pos n)
      have hfail' : ∀ j, j < n → attempt_failed (attempt (k + 1 + j)) = true := by
        intro j hj
        rw [show k + 1 + j = k + (j + 1) by omega]
        exact hfail (j + 1) (by omega)
      have harith : k + 1 + n = k + (n + 1) := by omega
      cases hatt : attempt k with
      | err msg =>
        have hmem := ih rest (k + 1)
          ⟨st.files, st.extractionError || is_extraction_error msg,
           st.attempted ++ [k]⟩ hlen' hfail'
        rw [harith] at hmem
        simpa only [dlLoop, hatt] using hmem
      | ok files =>
        have hempty : files = [] := by
          have h1 := h0
          rw [hatt] at h1
          simpa [attempt_failed, List.isEmpty_iff] using h1
        subst hempty
        have hmem := ih rest (k + 1)
          ⟨some [], st.extractionError, st.attempted ++ [k]⟩ hlen' hfail'
        rw [harith] at hmem
        simpa only [dlLoop, hatt, List.isEmpty_nil, if_pos rfl] using hmem

/-- C4: the candidate loop of YoutubeDownload._download tries the format
specifiers strictly in list order and accepts the first one whose attempt
yields at least one output file: the run returns exactly that attempt's files
and the attempted indices are exactly 0..i, so no later specifier is ever
attempted (an attempt's `ok` outcome is the directory listing observed after
`ydl.download` returns). -/
theorem yt_download_first_success_selection
    (attempt attempt2 : Nat → Outcome) (upd : Bool)
    (formats : List (Option String)) (i : Nat) (fs : List String)
    (hlen : i < formats.length)
    (hsucc : attempt i = .ok fs) (hne : fs ≠ [])
    (hfail : ∀ j, j < i → attempt_failed (attempt j) = true) :
    (yt_download attempt attempt2 upd formats false).files = some fs ∧
    (yt_download attempt attempt2 upd formats false).attempted =
      List.range (i + 1) := by
  obtain ⟨b, hb⟩ := dlLoop_first_success attempt fs i formats 0 ⟨none, false, []⟩
    hlen (by simpa using hsucc) hne (by simpa using hfail)
  have hfalsy : files_falsy (some fs) = false := by
    cases fs with
    | nil => exact absurd rfl hne
    | cons a l => rfl
  unfold yt_download
  rw [hb]
  simp [hfalsy, List.range_eq_range']

/-- Witness for the first-success theorem: the first specifier yields nothing,
the second succeeds, the third is never attempted. -/
theorem yt_download_first_success_selection_witness :
    (yt_download (fun n => if n = 0 then .ok [] else .ok ["v.mp4"])
        (fun _ => .err "x") false [some "A", some "B", some "C"] false).files =
      some ["v.mp4"] ∧
    (yt_download (fun n => if n = 0 then .ok [] else .ok ["v.mp4"])
        (fun _ => .err "x") false [some "A", some "B", some "C"] false).attempted =
      List.range 2 :=
  yt_download_first_success_selection _ _ false _ 1 ["v.mp4"] (by decide) rfl
    (by decide) (by decide)

/-- C5 counterexample: the claim states that a fatal content-class error (the
live-stream policy violation raised by match_filter) aborts the whole candidate
chain immediately.  The loop's `except Exception` (generic.py lines 417-423)
catches every exception and continues: with the live-stream error at candidate
0, candidate 1 is still attempted and its output is returned. -/
theorem live_stream_error_does_not_abort_chain :
    match_filter true = .error live_stream_msg ∧
    1 ∈ (yt_download
          (fun n => if n = 0 then .err live_stream_msg else .ok ["f.mp4"])
          (fun _ => .err "y") false [some "A", some "B"] false).attempted ∧
    (yt_download
          (fun n => if n = 0 then .err live_stream_msg else .ok ["f.mp4"])
          (fun _ => .err "y") false [some "A", some "B"] false).files =
      some ["f.mp4"] := by
  refine ⟨rfl, ?_, ?_⟩ <;> decide

/-- C5 amended: an attempt failing with the live-stream policy violation (or
any exception) never aborts the chain: the loop catches it and the next
candidate, when one exists, is still attempted.  Only after all candidates
fail can the one-time yt-dlp auto-update rerun the chain. -/
theorem download_loop_continues_after_fatal_error
    (attempt attempt2 : Nat → Outcome) (upd : Bool)
    (formats : List (Option String)) (i : Nat)
    (hlen : i + 1 < formats.length)
    (herr : attempt i = .err live_stream_msg)
    (hfail : ∀ j, j < i → attempt_failed (attempt j) = true) :
    (i + 1) ∈ (yt_download attempt attempt2 upd formats false).attempted := by
  have hfail' : ∀ j, j < i + 1 → attempt_failed (attempt j) = true := by
    intro j hj
    rcases Nat.lt_or_ge j i with h | h
    · exact hfail j h
    · have hji : j = i := by omega
      subst hji
      rw [herr]
      rfl
  have hmem := dlLoop_attempts_index attempt (i + 1) formats 0 ⟨none, false, []⟩
    hlen (by simpa using hfail')
  rw [Nat.zero_add] at hmem
  simp only [yt_download]
  split
  · exact List.mem_append.mpr (Or.inl hmem)
  · exact hmem

/-- Witness for the continuation theorem: a live-stream failure at candidate 0
is followed by an attempt of candidate 1. -/
theorem download_loop_continues_after_fatal_error_witness :
    1 ∈ (yt_download
          (fun n => if n = 0 then .err live_stream_msg else .ok ["g.mp4"])
          (fun _ => .ok []) true [some "P", none] false).attempted :=
  download_loop_continues_after_fatal_error _ _ true _ 0 (by decide) rfl
    (by omega)

lemma requests_stream_cancel (maxSize : Nat) (key : String) (total : Nat) :
    ∀ (chunks : List Nat) (st : DirectState), key ∈ st.events →
      (∃ c ∈ chunks, c ≠ 0) →
      ∃ w, requests_stream maxSize key total chunks st =
        (⟨st.events.erase key, w⟩, some (.valueError cancel_msg)) := by
  intro chunks
  induction chunks with
  | nil =>
    intro st _ hex
    simp at hex
  | cons c cs ih =>
    intro st hkey hex
    by_cases hc : c = 0
    · subst hc
      have hex' : ∃ x ∈ cs, x ≠ 0 := by
        rcases hex with ⟨x, hx, hxne⟩
        rcases List.mem_cons.mp hx with h0 | hcs
        · exact absurd h0 hxne
        · exact ⟨x, hcs, hxne⟩
      simp only [requests_stream, if_pos rfl]
      exact ih st hkey hex'
    · have hcc : check_for_cancel st.events key =
          (st.events.erase key, some (.valueError cancel_msg)) := by
        simp [check_for_cancel, hkey]
      simp only [requests_stream, if_neg hc, hcc]
      exact ⟨st.written + c, rfl⟩

/-- C7: when the transfer's identifier is in the cancellation set and the
stream reaches a chunk boundary (some non-empty chunk arrives), the transfer
ends as handled-cancellation, the flag is removed by the observation, and the
cache table is left exactly as it was: no cache entry is written for the
request. -/
theorem cancellation_terminates_without_cache_write
    (maxSize : Nat) (key vk : String) (total : Nat) (chunks : List Nat)
    (m : CacheMapping) (st : DirectPipeState)
    (hkey : key ∈ st.events) (hchunk : ∃ c ∈ chunks, c ≠ 0) :
    direct_start maxSize key vk total chunks m st =
      (⟨st.events.erase key, st.cache⟩, .cancelledHandled) := by
  obtain ⟨w, hw⟩ := requests_stream_cancel maxSize key total chunks
    ⟨st.events, 0⟩ hkey hchunk
  have hword : contains_cancel_word cancel_msg = true := by decide
  simp only [direct_start, hw, hword]
  rw [if_pos trivial]

/-- Witness for the cancellation theorem: a transfer flagged before its first
chunk is cancelled at that chunk, removing the flag and writing no cache row. -/
theorem cancellation_terminates_without_cache_write_witness :
    direct_start 100 "1_2" "vk" 0 [5] ⟨none, none⟩ ⟨{"1_2"}, []⟩ =
      (⟨({"1_2"} : Finset String).erase "1_2", []⟩, .cancelledHandled) :=
  cancellation_terminates_without_cache_write 100 "1_2" "vk" 0 [5]
    ⟨none, none⟩ ⟨{"1_2"}, []⟩ (by decide) ⟨5, by decide, by decide⟩

/-- C6 counterexample: the claim states that a transfer whose advertised total
exceeds the hard ceiling aborts before any bytes are written.  The only
oversize check lives in the progress hook, which the streaming loop reaches
only after writing a chunk: with a 4GiB ceiling and an advertised total one
byte larger, the loop aborts with the size error only after the first 1MiB
chunk has been written. -/
theorem oversize_abort_after_bytes_written :
    requests_stream (4 * 1024 ^ 3) "1_7" (4 * 1024 ^ 3 + 1)
        [1048576, 1048576] ⟨∅, 0⟩ =
      (⟨∅, 1048576⟩, some (.exn (size_limit_msg (4 * 1024 ^ 3 + 1)))) ∧
    (⟨∅, 1048576⟩ : DirectState).written ≠ 0 := by
  constructor
  · rfl
  · decide

/-- C6 amended: a downloading progress event advertising a total above
MAX_DOWNLOAD_SIZE raises the size error at that callback (whatever number of
bytes is already written), totals at or below the ceiling proceed; a completed
file at or below TG_NORMAL_MAX_SIZE is kept whole, and a larger one is split
into ceil(size / 1.9GiB) duration-equal parts (at least one), each cut
targeting ~1.9GiB, below the per-file limit. -/
theorem size_policy_characterization
    (maxSize tgMax : Nat) (key : String) (events : Finset String)
    (d : HookData) (fileSize : Nat) (duration : ℚ)
    (hkey : key ∉ events) (hdl : d.status = "downloading") :
    (maxSize < hook_total d →
      download_hook maxSize key events d =
        (events, some (.exn (size_limit_msg (hook_total d))))) ∧
    (hook_total d ≤ maxSize →
      download_hook maxSize key events d = (events, none)) ∧
    (fileSize ≤ tgMax →
      split_video_if_needed tgMax fileSize duration = .original) ∧
    (tgMax < fileSize →
      ∃ ps, split_video_if_needed tgMax fileSize duration = .parts ps ∧
        ps.length = num_parts fileSize ∧ 0 < num_parts fileSize ∧
        ∀ p ∈ ps, p.partDuration = duration / (num_parts fileSize : ℚ)) := by
  have hcc : check_for_cancel events key = (events, none) := by
    simp [check_for_cancel, hkey]
  refine ⟨?_, ?_, ?_, ?_⟩
  · intro hbig
    simp [download_hook, hcc, hdl, hbig]
  · intro hsmall
    have : ¬ hook_total d > maxSize := by omega
    simp [download_hook, hcc, hdl, this]
  · intro hle
    simp [split_video_if_needed, hle]
  · intro hgt
    have hnle : ¬ fileSize ≤ tgMax := by omega
    refine ⟨(List.range (num_parts fileSize)).map (fun i =>
        ⟨i, (i : ℚ) * (duration / (num_parts fileSize : ℚ)),
         duration / (num_parts fileSize : ℚ)⟩),
      by simp [split_video_if_needed, hnle], by simp, ?_, ?_⟩
    · have hT : (19 * 1024 ^ 3 : Nat) = 20401094656 := by norm_num
      have hfs : 1 ≤ fileSize := by omega
      unfold num_parts
      rw [hT]
      exact Nat.div_pos (by omega) (by norm_num)
    · intro p hp
      simp only [List.mem_map] at hp
      obtain ⟨i, _, hip⟩ := hp
      rw [← hip]

/-- Witness for the size-policy theorem: a downloading event with total 101
against a ceiling of 100 raises the size error. -/
theorem size_policy_characterization_witness :
    download_hook 100 "a_1" ∅ ⟨"downloading", 7, some 101, none⟩ =
      (∅, some (.exn (size_limit_msg 101))) :=
  (size_policy_characterization 100 50 "a_1" ∅
    ⟨"downloading", 7, some 101, none⟩ 10 1 (by decide) rfl).1 (by decide)

/-- C9 counterexample: the claim states the generic direct-HTTP strategy is
chosen exactly when the URL's path suggests a direct media file by its
extension.  The source tests whether any media extension occurs anywhere in
the lower-cased URL: for a hostname containing ".mp3" the direct strategy is
chosen although the path "/page" carries no media extension and no table entry
matches. -/
theorem direct_detection_ignores_path_counterexample :
    special_download_entrance (some "www.mp3.example.net")
        "https://www.mp3.example.net/page" = .direct ∧
    spec_direct_by_path_extension "/page" = false ∧
    DOWNLOADER_MAP.find? (fun p => str_ends_with "www.mp3.example.net" p.1) =
      none := by
  refine ⟨?_, ?_, ?_⟩ <;> decide

/-- C9 amended: strategy resolution rejects YouTube hostnames with the
guidance error; otherwise the first downloader-table entry whose domain is a
hostname suffix wins; with no table match, the single generic direct-HTTP
strategy is chosen exactly when some media extension occurs as a substring
anywhere in the lower-cased URL (not only as the path's extension); otherwise
resolution fails with the no-strategy error. -/
theorem special_download_entrance_characterization (h url : String) :
    ((str_ends_with h "youtube.com" = true ∨ h = "youtu.be") →
      special_download_entrance (some h) url = .youtubeGuidance) ∧
    (¬(str_ends_with h "youtube.com" = true ∨ h = "youtu.be") →
      (∀ suf st,
        DOWNLOADER_MAP.find? (fun p => str_ends_with h p.1) = some (suf, st) →
        special_download_entrance (some h) url = .handler st) ∧
      (DOWNLOADER_MAP.find? (fun p => str_ends_with h p.1) = none →
        (special_download_entrance (some h) url = .direct ↔
          is_direct_download_url url = true) ∧
        (is_direct_download_url url = false →
          special_download_entrance (some h) url = .noStrategy))) := by
  constructor
  · intro hyt
    have hcond : (str_ends_with h "youtube.com" || h == "youtu.be") = true := by
      rcases hyt with h1 | h2
      · simp [h1]
      · simp [h2]
    simp [special_download_entrance, hcond]
  · intro hyt
    rw [not_or] at hyt
    have hcond : (str_ends_with h "youtube.com" || h == "youtu.be") = false := by
      have h1 : str_ends_with h "youtube.com" = false :=
        Bool.not_eq_true _ ▸ Bool.of_not_eq_true hyt.1
      have h2 : (h == "youtu.be") = false := by
        simp [hyt.2]
      simp [h1, h2]
    constructor
    · intro suf st hfind
      simp [special_download_entrance, hcond, hfind]
    · intro hnone
      constructor
      · constructor
        · intro hres
          by_cases hd : is_direct_download_url url
          · exact hd
          · simp [special_download_entrance, hcond, hnone, hd] at hres
        · intro hd
          simp [special_download_entrance, hcond, hnone, hd]
      · intro hd
        simp [special_download_entrance, hcond, hnone, hd]

/-- Witness for the resolution theorem: a tiktok subdomain resolves to the
tiktok handler by suffix match. -/
theorem special_download_entrance_characterization_witness :
    special_download_entrance (some "a.tiktok.com") "https://a.tiktok.com/x" =
      .handler .tiktok :=
  ((special_download_entrance_characterization "a.tiktok.com"
      "https://a.tiktok.com/x").2 (by decide)).1 "tiktok.com" .tiktok (by decide)

end MediaBot
